import Mathlib

/-!
Shallow embedding of `quinn-proto/src/connection/paths.rs`: per-path state of a
QUIC-style transport — an RFC6298-style RTT estimator, a DPLPMTUD MTU-discovery
state machine, and the `PathData` aggregate.

Modelling conventions:
* Rust `Duration` values are modelled as `Nat` nanoseconds.  A Rust `Duration`
  holds `u64` seconds plus sub-second nanoseconds, so every representable value
  lies in `[0, durationMaxNs]`; comparison, `min`, addition and scalar
  multiplication/division on `Duration` agree with the corresponding `Nat`
  operations on total nanoseconds.  `Duration` subtraction panics on underflow;
  where the code subtracts we either keep the guard the code itself has, or
  model the operation with the checked `csub` (`none` = panic).
* `u16`/`u64`/`usize` fields are modelled as `Nat`.  All values reached by the
  code stay far below the respective bounds (proved below for the fields where
  it matters), so no wraparound is modelled.
* Fallible operations (`Option::unwrap`, underflowing subtraction) return
  `Option`, with `none` standing for a panic.
-/

/-- Total nanoseconds of `Duration::new(u64::MAX, 0)`, the initial `min` of the
RTT estimator. -/
def u64MaxSecsNs : Nat := (2 ^ 64 - 1) * 1000000000

/-- Total nanoseconds of `Duration::MAX` (`u64::MAX` seconds plus `999_999_999`
nanoseconds), the largest representable Rust `Duration`. -/
def durationMaxNs : Nat := (2 ^ 64 - 1) * 1000000000 + 999999999

/-- Checked subtraction: `some (a - b)` when it does not underflow, `none`
standing for a Rust `Duration` subtraction panic. -/
def csub (a b : Nat) : Option Nat :=
  if b ≤ a then some (a - b) else none

/-- The RTT estimator state (`RttEstimator` in `paths.rs`); durations in
nanoseconds. -/
structure RttEstimator where
  latest : Nat
  smoothed : Option Nat
  var : Nat
  min : Nat
  deriving DecidableEq, Repr

namespace RttEstimator

/-- `RttEstimator::new`. -/
def new : RttEstimator :=
  { latest := 0, smoothed := none, var := 0, min := u64MaxSecsNs }

/-- `RttEstimator::update` embedded as a pure state transformer.  The two `Nat`
subtractions that model panicking `Duration` subtractions are `rtt - mn`
(safe because `mn = Nat.min e.min rtt ≤ rtt`) and `rtt - ackDelay` (safe
because its guard gives `ackDelay < rtt - mn ≤ rtt`); `updateChecked` below
models the panics explicitly and `updateChecked_eq` proves they never fire. -/
def update (ackDelay rtt : Nat) (e : RttEstimator) : RttEstimator :=
  let mn := Nat.min e.min rtt
  let latest := if ackDelay < rtt - mn then rtt - ackDelay else rtt
  match e.smoothed with
  | some smoothed =>
      { latest := latest
        smoothed := some ((7 * smoothed + latest) / 8)
        var := (3 * e.var + (if latest < smoothed then smoothed - latest else latest - smoothed)) / 4
        min := mn }
  | none =>
      { latest := latest, smoothed := some latest, var := latest / 2, min := mn }

/-- `RttEstimator::update` with every potentially panicking `Duration`
subtraction routed through `csub` (`none` = panic). -/
def updateChecked (ackDelay rtt : Nat) (e : RttEstimator) : Option RttEstimator :=
  let mn := Nat.min e.min rtt
  match csub rtt mn with
  | none => none
  | some diff =>
    match (if ackDelay < diff then csub rtt ackDelay else some rtt) with
    | none => none
    | some latest =>
      match e.smoothed with
      | some smoothed =>
          some { latest := latest
                 smoothed := some ((7 * smoothed + latest) / 8)
                 var := (3 * e.var + (if latest < smoothed then smoothed - latest else latest - smoothed)) / 4
                 min := mn }
      | none =>
          some { latest := latest, smoothed := some latest, var := latest / 2, min := mn }

/-- `RttEstimator::get`. -/
def get (e : RttEstimator) : Nat :=
  match e.smoothed with
  | some x => Nat.max x e.latest
  | none => e.latest

/-- `RttEstimator::pto_base`.  `TIMER_GRANULARITY` lives outside the given
sources; modelled from the spec: a fixed minimum-timer-resolution constant
supplied by the surrounding system, taken here as an arbitrary parameter `g`. -/
def pto_base (g : Nat) (e : RttEstimator) : Option Nat :=
  e.smoothed.map fun srtt => srtt + Nat.max (4 * e.var) g

/-- Lists of `(ack_delay, rtt)` samples applied in order. -/
def applyUpdates (l : List (Nat × Nat)) (e : RttEstimator) : RttEstimator :=
  l.foldl (fun e p => update p.1 p.2 e) e

end RttEstimator

/-- Remote addresses: the code consumes nothing of a `SocketAddr` beyond its
address family, so the two families are the whole model. -/
inductive SocketAddr where
  | V4
  | V6
  deriving DecidableEq, Repr

/-- The MTU-discovery phase (`Phase` in `paths.rs`). -/
inductive Phase where
  | Searching
  | Complete
  deriving DecidableEq, Repr

/-- `LEVELS`: the fixed ascending table of candidate probe sizes. -/
def LEVELS : List Nat := [1350, 1400, 1450, 1500]

/-- `MAX_PROBES`. -/
def MAX_PROBES : Nat := 3

/-- `MAX_PLPMTU` (`u16::MAX`). -/
def MAX_PLPMTU : Nat := 65535

/-- `BASE_PLPMTU`. -/
def BASE_PLPMTU : Nat := 1280

/-- The DPLPMTUD state machine (`MtuDiscovery` in `paths.rs`); `u16`/`u64`/
`usize` fields as `Nat`. -/
structure MtuDiscovery where
  header_size : Nat
  current : Nat
  probe_number : Option Nat
  probe_size : Option Nat
  probe_count : Nat
  phase : Phase
  deriving DecidableEq, Repr

namespace MtuDiscovery

/-- `MtuDiscovery::new`. -/
def new (remote : SocketAddr) : MtuDiscovery :=
  { header_size := match remote with | .V4 => 20 | .V6 => 48
    current := BASE_PLPMTU
    probe_number := none
    probe_size := none
    probe_count := 0
    phase := Phase.Searching }

/-- `MtuDiscovery::poll_transmit`: returns the probe size to send (if any)
together with the updated state. -/
def poll_transmit (next_packet_number : Nat) (st : MtuDiscovery) : Option Nat × MtuDiscovery :=
  if st.probe_number.isSome then (none, st)
  else if st.phase = Phase.Complete then (none, st)
  else
    match st.probe_size with
    | some s => (some s, { st with probe_number := some next_packet_number })
    | none =>
      match LEVELS.find? (fun x => st.current + st.header_size < x) with
      | some v =>
          (some v, { st with probe_size := some v, probe_number := some next_packet_number })
      | none => (none, { st with phase := Phase.Complete })

/-- `MtuDiscovery::acked`.  `none` models a panic: the `unwrap` of an absent
`probe_size`, or underflow of the `u16` subtraction `probe_size - header_size`
(neither fires on reachable states, see the invariant below). -/
def acked (number : Nat) (st : MtuDiscovery) : Option MtuDiscovery :=
  match st.probe_number with
  | some probed =>
    if probed = number then
      match st.probe_size with
      | some s =>
        if st.header_size ≤ s then
          some { st with
                 probe_number := none
                 probe_size := none
                 current := s - st.header_size
                 phase := if s - st.header_size = MAX_PLPMTU then Phase.Complete else st.phase }
        else none
      | none => none
    else some st
  | none => some st

/-- `MtuDiscovery::lost`. -/
def lost (number : Nat) (st : MtuDiscovery) : MtuDiscovery :=
  match st.probe_number with
  | some probed =>
    if probed = number then
      let st' := { st with probe_number := none, probe_count := st.probe_count + 1 }
      if st'.probe_count = MAX_PROBES then
        { st' with probe_size := none, phase := Phase.Complete }
      else st'
    else st
  | none => st

end MtuDiscovery

/-- One externally driven transition of the MTU-discovery state machine: a
`poll_transmit`, a successful `acked`, or a `lost`, each with an arbitrary
packet number. -/
inductive MtuStep : MtuDiscovery → MtuDiscovery → Prop where
  | poll (pn : Nat) (st : MtuDiscovery) : MtuStep st (MtuDiscovery.poll_transmit pn st).2
  | ack (pn : Nat) (st st' : MtuDiscovery) :
      MtuDiscovery.acked pn st = some st' → MtuStep st st'
  | loss (pn : Nat) (st : MtuDiscovery) : MtuStep st (MtuDiscovery.lost pn st)

/-- States reachable from a freshly constructed `MtuDiscovery` by any sequence
of `poll_transmit` / `acked` / `lost` calls. -/
inductive MtuReachable : MtuDiscovery → Prop where
  | base (remote : SocketAddr) : MtuReachable (MtuDiscovery.new remote)
  | step {st st' : MtuDiscovery} : MtuReachable st → MtuStep st st' → MtuReachable st'

/-- One `PathData` record (`congestion` kept polymorphic: the controller is an
external capability the code only stores and duplicates). -/
structure PathData (C : Type) where
  remote : SocketAddr
  rtt : RttEstimator
  sending_ecn : Bool
  congestion : C
  mtud : MtuDiscovery

namespace PathData

/-- `PathData::new`. -/
def new {C : Type} (remote : SocketAddr) (congestion : C) : PathData C :=
  { remote := remote
    rtt := RttEstimator.new
    sending_ecn := true
    congestion := congestion
    mtud := MtuDiscovery.new remote }

/-- `PathData::from_previous`; `cloneBox` stands for the controller's
`clone_box` capability. -/
def from_previous {C : Type} (cloneBox : C → C) (remote : SocketAddr) (prev : PathData C) :
    PathData C :=
  { remote := remote
    rtt := prev.rtt
    congestion := cloneBox prev.congestion
    sending_ecn := true
    mtud := MtuDiscovery.new remote }

end PathData

/-- Sample state used to instantiate theorems: a probe of size 1350 with packet
number 5 outstanding, one loss already counted at this size. -/
def sampleProbing : MtuDiscovery :=
  { header_size := 20, current := 1280, probe_number := some 5, probe_size := some 1350,
    probe_count := 1, phase := Phase.Searching }

/-- Sample state used to instantiate theorems: discovery finished. -/
def sampleComplete : MtuDiscovery :=
  { header_size := 20, current := 1330, probe_number := none, probe_size := none,
    probe_count := 0, phase := Phase.Complete }

/-- Invariant satisfied by every reachable MTU-discovery state: the header size
is one of the two address-family constants, `current` sits between the base
value and `1500 - header_size`, a selected probe size comes from `LEVELS` and
strictly exceeds `current + header_size`, and an outstanding probe number
implies a selected probe size. -/
def MtuInv (st : MtuDiscovery) : Prop :=
  (st.header_size = 20 ∨ st.header_size = 48) ∧
  BASE_PLPMTU ≤ st.current ∧
  st.current + st.header_size ≤ 1500 ∧
  (∀ s, st.probe_size = some s → st.current + st.header_size < s ∧ s ∈ LEVELS) ∧
  (st.probe_number.isSome → st.probe_size.isSome)

namespace RttEstimator

theorem update_min (ackDelay rtt : Nat) (e : RttEstimator) :
    (update ackDelay rtt e).min = Nat.min e.min rtt := by
  unfold update
  cases h : e.smoothed <;> simp [h]

theorem update_smoothed_isSome (ackDelay rtt : Nat) (e : RttEstimator) :
    (update ackDelay rtt e).smoothed.isSome := by
  unfold update
  cases h : e.smoothed <;> simp [h]

theorem applyUpdates_min (l : List (Nat × Nat)) (e : RttEstimator) :
    (applyUpdates l e).min = l.foldl (fun m p => Nat.min m p.2) e.min := by
  induction l generalizing e with
  | nil => rfl
  | cons p l ih =>
      simp only [applyUpdates, List.foldl_cons] at *
      rw [ih (update p.1 p.2 e), update_min]

theorem applyUpdates_smoothed_isSome (l : List (Nat × Nat)) (e : RttEstimator)
    (h : e.smoothed.isSome) : (applyUpdates l e).smoothed.isSome := by
  induction l generalizing e with
  | nil => exact h
  | cons p l ih =>
      simp only [applyUpdates, List.foldl_cons] at *
      exact ih _ (update_smoothed_isSome p.1 p.2 e)

theorem applyUpdates_new_smoothed_isSome (l : List (Nat × Nat)) (h : l ≠ []) :
    (applyUpdates l RttEstimator.new).smoothed.isSome := by
  cases l with
  | nil => exact absurd rfl h
  | cons p l =>
      simp only [applyUpdates, List.foldl_cons]
      exact applyUpdates_smoothed_isSome l _ (update_smoothed_isSome p.1 p.2 new)

end RttEstimator

/-- C7: `RttEstimator::update` is total over all inputs and states — neither
duration subtraction in it can panic: the checked embedding always succeeds
and agrees with the total one. -/
theorem updateChecked_eq_update (ackDelay rtt : Nat) (e : RttEstimator) :
    RttEstimator.updateChecked ackDelay rtt e = some (RttEstimator.update ackDelay rtt e) := by
  have hmn : Nat.min e.min rtt ≤ rtt := Nat.min_le_right _ _
  cases hs : e.smoothed with
  | none =>
      unfold RttEstimator.updateChecked RttEstimator.update csub
      by_cases hc : ackDelay < rtt - Nat.min e.min rtt
      · have ha : ackDelay ≤ rtt := by omega
        simp [hmn, hc, ha, hs]
      · simp [hmn, hc, hs]
  | some smoothed =>
      unfold RttEstimator.updateChecked RttEstimator.update csub
      by_cases hc : ackDelay < rtt - Nat.min e.min rtt
      · have ha : ackDelay ≤ rtt := by omega
        simp [hmn, hc, ha, hs]
      · simp [hmn, hc, hs]

/-- C1 counterexample: from smoothed = 100ms, var = 20ms, min = 100ms, the
sample `update(0, 140ms)` yields smoothed = (7·100+140)/8 ms = 105ms, not the
claimed 117.5ms (values in nanoseconds). -/
theorem update_example_smoothed_ne :
    (RttEstimator.update 0 140000000
        { latest := 100000000, smoothed := some 100000000, var := 20000000,
          min := 100000000 }).smoothed ≠ some 117500000 := by
  decide

/-- C1 amended: from any state with smoothed = 100ms, var = 20ms and min at or
below 100ms, `update(0, 140ms)` yields var = 25ms and smoothed = 105ms. -/
theorem update_example (e : RttEstimator) (h1 : e.smoothed = some 100000000)
    (h2 : e.var = 20000000) (h3 : e.min ≤ 100000000) :
    (RttEstimator.update 0 140000000 e).var = 25000000 ∧
    (RttEstimator.update 0 140000000 e).smoothed = some 105000000 := by
  have hmn : Nat.min e.min 140000000 = e.min := Nat.min_eq_left (by omega)
  have hlt : 0 < 140000000 - Nat.min e.min 140000000 := by omega
  unfold RttEstimator.update
  rw [h1]
  simp only [hmn, hlt, if_pos, Nat.sub_zero]
  norm_num [h2]

/-- C1 amended, witnessed at a concrete state. -/
theorem update_example_witness :
    (RttEstimator.update 0 140000000
        { latest := 100000000, smoothed := some 100000000, var := 20000000,
          min := 100000000 }).var = 25000000 ∧
    (RttEstimator.update 0 140000000
        { latest := 100000000, smoothed := some 100000000, var := 20000000,
          min := 100000000 }).smoothed = some 105000000 :=
  update_example _ rfl rfl (by decide)

/-- C6 counterexample: a first sample of `Duration::MAX` does not lower `min`
(which starts at `Duration::new(u64::MAX, 0) < Duration::MAX`), so after that
call `min` is not the minimum of the rtt arguments seen. -/
theorem min_not_sample_min :
    (RttEstimator.applyUpdates [(0, durationMaxNs)] RttEstimator.new).min = u64MaxSecsNs ∧
    u64MaxSecsNs ≠ durationMaxNs := by
  constructor
  · decide
  · decide

/-- C6 amended: `min` never increases across an `update` call and is never
negative, and after any sequence of updates it equals the minimum of the
initial value (`u64::MAX` seconds) and all `rtt` arguments seen so far,
independent of the `ack_delay` arguments. -/
theorem min_monotone (a r : Nat) (e : RttEstimator) (l : List (Nat × Nat)) :
    (RttEstimator.update a r e).min ≤ e.min ∧
    0 ≤ (RttEstimator.update a r e).min ∧
    (RttEstimator.applyUpdates l RttEstimator.new).min
      = l.foldl (fun m p => Nat.min m p.2) u64MaxSecsNs := by
  refine ⟨?_, Nat.zero_le _, ?_⟩
  · rw [RttEstimator.update_min]
    exact Nat.min_le_left _ _
  · rw [RttEstimator.applyUpdates_min]
    rfl

/-- C8: `pto_base` is `None` exactly until the first `update`, and afterwards
returns `smoothed + max(4·var, granularity)`, which is at least the timer
granularity. -/
theorem pto_base_spec (g : Nat) (l : List (Nat × Nat)) (v : Nat) :
    (RttEstimator.pto_base g (RttEstimator.applyUpdates l RttEstimator.new) = none ↔ l = []) ∧
    (RttEstimator.pto_base g (RttEstimator.applyUpdates l RttEstimator.new) = some v →
      g ≤ v) := by
  constructor
  · constructor
    · intro h
      by_contra hne
      have hs := RttEstimator.applyUpdates_new_smoothed_isSome l hne
      unfold RttEstimator.pto_base at h
      rcases Option.isSome_iff_exists.mp hs with ⟨x, hx⟩
      rw [hx] at h
      simp at h
    · rintro rfl
      rfl
  · intro h
    unfold RttEstimator.pto_base at h
    cases hx : (RttEstimator.applyUpdates l RttEstimator.new).smoothed with
    | none => rw [hx] at h; exact absurd h (by simp)
    | some srtt =>
        rw [hx] at h
        simp only [Option.map_some', Option.some_inj] at h
        exact le_trans (le_trans (Nat.le_max_right _ _) (Nat.le_add_left _ _)) h.le

/-- C8, witnessed at granularity 1 after the single sample (0, 100). -/
theorem pto_base_spec_witness :
    (RttEstimator.pto_base 1 (RttEstimator.applyUpdates [(0, 100)] RttEstimator.new) = none ↔
      [(0, 100)] = ([] : List (Nat × Nat))) ∧
    (RttEstimator.pto_base 1 (RttEstimator.applyUpdates [(0, 100)] RttEstimator.new) = some 300 →
      1 ≤ 300) :=
  pto_base_spec 1 [(0, 100)] 300



namespace MtuDiscovery

theorem lost_cases (pn : Nat) (st : MtuDiscovery) :
    lost pn st = st ∨
    lost pn st = { st with probe_number := none, probe_count := st.probe_count + 1 } ∨
    lost pn st = { st with probe_number := none, probe_count := st.probe_count + 1, probe_size := none, phase := Phase.Complete } := by
  cases hp : st.probe_number with
  | none => left; simp [lost, hp]
  | some probed =>
      by_cases he : probed = pn
      · by_cases h3 : st.probe_count + 1 = MAX_PROBES
        · right; right; simp [lost, hp, he, h3]
        · right; left; simp [lost, hp, he, h3]
      · left; simp [lost, hp, he]

theorem acked_eq_some {pn : Nat} {st st' : MtuDiscovery}
    (h : acked pn st = some st') :
    st' = st ∨
    ∃ s, st.probe_number = some pn ∧ st.probe_size = some s ∧ st.header_size ≤ s ∧
      st' = { st with probe_number := none, probe_size := none, current := s - st.header_size, phase := if s - st.header_size = MAX_PLPMTU then Phase.Complete else st.phase } := by
  unfold acked at h
  split at h
  next probed heq =>
    split at h
    next he =>
      split at h
      next s hs =>
        split at h
        next hh =>
          right
          refine ⟨s, ?_, hs, hh, (Option.some_inj.mp h).symm⟩
          rw [heq, he]
        next hh => exact absurd h (by simp)
      next hs => exact absurd h (by simp)
    next he => left; exact (Option.some_inj.mp h).symm
  next heq => left; exact (Option.some_inj.mp h).symm

end MtuDiscovery

namespace MtuDiscovery

theorem poll_transmit_cases (pn : Nat) (st : MtuDiscovery) :
    (poll_transmit pn st).2 = st ∨
    (∃ s, st.probe_size = some s ∧
      (poll_transmit pn st).2 = { st with probe_number := some pn }) ∨
    (∃ v, LEVELS.find? (fun x => st.current + st.header_size < x) = some v ∧
      (poll_transmit pn st).2 = { st with probe_size := some v, probe_number := some pn }) ∨
    (poll_transmit pn st).2 = { st with phase := Phase.Complete } := by
  by_cases hp : st.probe_number.isSome
  · left; simp [poll_transmit, hp]
  · by_cases hc : st.phase = Phase.Complete
    · left; simp [poll_transmit, hp, hc]
    · cases hs : st.probe_size with
      | some s => right; left; exact ⟨s, rfl, by simp [poll_transmit, hp, hc, hs]⟩
      | none =>
          cases hf : LEVELS.find? (fun x => st.current + st.header_size < x) with
          | some v => right; right; left; exact ⟨v, rfl, by simp [poll_transmit, hp, hc, hs, hf]⟩
          | none => right; right; right; simp [poll_transmit, hp, hc, hs, hf]

theorem poll_transmit_current (pn : Nat) (st : MtuDiscovery) :
    (poll_transmit pn st).2.current = st.current := by
  rcases poll_transmit_cases pn st with h | ⟨s, _, h⟩ | ⟨v, _, h⟩ | h <;> rw [h]

theorem lost_current (pn : Nat) (st : MtuDiscovery) :
    (lost pn st).current = st.current := by
  rcases lost_cases pn st with h | h | h <;> rw [h]

theorem poll_transmit_complete (pn : Nat) (st : MtuDiscovery)
    (h : st.phase = Phase.Complete) :
    (poll_transmit pn st).2.phase = Phase.Complete ∧ (poll_transmit pn st).1 = none := by
  by_cases hp : st.probe_number.isSome
  · simp [poll_transmit, hp, h]
  · simp [poll_transmit, hp, h]

theorem acked_complete {pn : Nat} {st st' : MtuDiscovery}
    (ha : acked pn st = some st') (h : st.phase = Phase.Complete) :
    st'.phase = Phase.Complete := by
  rcases acked_eq_some ha with rfl | ⟨s, _, _, _, rfl⟩
  · exact h
  · simp [h]

theorem lost_complete (pn : Nat) (st : MtuDiscovery) (h : st.phase = Phase.Complete) :
    (lost pn st).phase = Phase.Complete := by
  rcases lost_cases pn st with hl | hl | hl <;> rw [hl] <;> exact h

end MtuDiscovery

theorem mtuStep_complete {st st' : MtuDiscovery} (hs : MtuStep st st')
    (h : st.phase = Phase.Complete) : st'.phase = Phase.Complete := by
  cases hs with
  | poll pn st => exact (MtuDiscovery.poll_transmit_complete pn st h).1
  | ack pn st st' ha => exact MtuDiscovery.acked_complete ha h
  | loss pn st => exact MtuDiscovery.lost_complete pn st h

theorem mem_LEVELS_bounds {v : Nat} (h : v ∈ LEVELS) : 1350 ≤ v ∧ v ≤ 1500 := by
  simp [LEVELS] at h
  rcases h with rfl | rfl | rfl | rfl <;> norm_num

theorem mtuInv_new (remote : SocketAddr) : MtuInv (MtuDiscovery.new remote) := by
  cases remote <;>
    exact ⟨by simp [MtuDiscovery.new], by simp [MtuDiscovery.new, BASE_PLPMTU],
      by simp [MtuDiscovery.new, BASE_PLPMTU], by simp [MtuDiscovery.new],
      by simp [MtuDiscovery.new]⟩

theorem mtuInv_poll (pn : Nat) (st : MtuDiscovery) (h : MtuInv st) :
    MtuInv (MtuDiscovery.poll_transmit pn st).2 := by
  obtain ⟨hh, hb, hc, hps, hpn⟩ := h
  rcases MtuDiscovery.poll_transmit_cases pn st with heq | ⟨s, hs, heq⟩ | ⟨v, hf, heq⟩ | heq <;>
    rw [heq]
  · exact ⟨hh, hb, hc, hps, hpn⟩
  · exact ⟨hh, hb, hc, hps, fun _ => by simp [hs]⟩
  · have hpv : st.current + st.header_size < v := by
      have := List.find?_some hf
      simpa using this
    have hmem : v ∈ LEVELS := List.mem_of_find?_eq_some hf
    refine ⟨hh, hb, hc, ?_, fun _ => rfl⟩
    intro s hs
    have : v = s := Option.some_inj.mp hs
    subst this
    exact ⟨hpv, hmem⟩
  · exact ⟨hh, hb, hc, hps, hpn⟩

theorem mtuInv_acked {pn : Nat} {st st' : MtuDiscovery}
    (ha : MtuDiscovery.acked pn st = some st') (h : MtuInv st) : MtuInv st' := by
  obtain ⟨hh, hb, hc, hps, hpn⟩ := h
  rcases MtuDiscovery.acked_eq_some ha with rfl | ⟨s, hn, hs, hhs, rfl⟩
  · exact ⟨hh, hb, hc, hps, hpn⟩
  · obtain ⟨hlt, hmem⟩ := hps s hs
    obtain ⟨hs1350, hs1500⟩ := mem_LEVELS_bounds hmem
    have hb' : BASE_PLPMTU ≤ st.current := hb
    refine ⟨hh, ?_, ?_, ?_, ?_⟩
    · show BASE_PLPMTU ≤ s - st.header_size
      have : 1280 ≤ st.current := hb'
      show 1280 ≤ s - st.header_size
      omega
    · show s - st.header_size + st.header_size ≤ 1500
      omega
    · intro s' hs'
      exact absurd hs' (by simp)
    · intro hI
      exact absurd hI (by simp)

theorem mtuInv_lost (pn : Nat) (st : MtuDiscovery) (h : MtuInv st) :
    MtuInv (MtuDiscovery.lost pn st) := by
  obtain ⟨hh, hb, hc, hps, hpn⟩ := h
  rcases MtuDiscovery.lost_cases pn st with heq | heq | heq <;> rw [heq]
  · exact ⟨hh, hb, hc, hps, hpn⟩
  · refine ⟨hh, hb, hc, hps, ?_⟩
    intro hI
    exact absurd hI (by simp)
  · refine ⟨hh, hb, hc, ?_, ?_⟩
    · intro s hs
      exact absurd hs (by simp)
    · intro hI
      exact absurd hI (by simp)

theorem mtuInv_step {st st' : MtuDiscovery} (h : MtuInv st) (hs : MtuStep st st') :
    MtuInv st' := by
  cases hs with
  | poll pn st => exact mtuInv_poll pn st h
  | ack pn st st' ha => exact mtuInv_acked ha h
  | loss pn st => exact mtuInv_lost pn st h

theorem mtuReachable_inv {st : MtuDiscovery} (h : MtuReachable st) : MtuInv st := by
  induction h with
  | base remote => exact mtuInv_new remote
  | step _ hs ih => exact mtuInv_step ih hs

theorem mtuStep_current_mono {st st' : MtuDiscovery} (h : MtuInv st) (hs : MtuStep st st') :
    st.current ≤ st'.current := by
  cases hs with
  | poll pn st => exact le_of_eq (MtuDiscovery.poll_transmit_current pn st).symm
  | ack pn st st' ha =>
      rcases MtuDiscovery.acked_eq_some ha with rfl | ⟨s, hn, hsz, hhs, rfl⟩
      · exact le_rfl
      · obtain ⟨_, _, _, hps, _⟩ := h
        obtain ⟨hlt, _⟩ := hps s hsz
        show st.current ≤ s - st.header_size
        omega
  | loss pn st => exact le_of_eq (MtuDiscovery.lost_current pn st).symm

/-- C2 counterexample: an `acked` matching the outstanding probe does not reset
`probe_count` — from a state with one loss already counted it stays 1. -/
theorem acked_probe_count_not_reset :
    (MtuDiscovery.acked 5 sampleProbing).map MtuDiscovery.probe_count = some 1 ∧
    (1 : Nat) ≠ 0 := by
  exact ⟨by decide, by decide⟩

/-- C2 amended: `acked(n)` on a state with an outstanding probe (number `n`,
size `s`, with `header_size ≤ s`) clears `probe_number`, promotes `current` to
`s - header_size`, clears `probe_size`, and leaves `probe_count` unchanged
(losses counted at earlier sizes keep counting toward the three-loss limit). -/
theorem acked_match_promotes (st : MtuDiscovery) (n s : Nat)
    (hn : st.probe_number = some n) (hs : st.probe_size = some s)
    (hh : st.header_size ≤ s) :
    MtuDiscovery.acked n st = some { st with probe_number := none, probe_size := none, current := s - st.header_size, phase := if s - st.header_size = MAX_PLPMTU then Phase.Complete else st.phase } ∧
    (MtuDiscovery.acked n st).map MtuDiscovery.probe_count = some st.probe_count := by
  have h1 : MtuDiscovery.acked n st = some { st with probe_number := none, probe_size := none, current := s - st.header_size, phase := if s - st.header_size = MAX_PLPMTU then Phase.Complete else st.phase } := by
    unfold MtuDiscovery.acked
    simp [hn, hs, hh]
  exact ⟨h1, by rw [h1]; rfl⟩

/-- C2 amended, witnessed at `sampleProbing` (probe 1350 outstanding as packet
5, one loss already counted). -/
theorem acked_match_promotes_witness :
    MtuDiscovery.acked 5 sampleProbing = some { sampleProbing with probe_number := none, probe_size := none, current := 1350 - sampleProbing.header_size, phase := if 1350 - sampleProbing.header_size = MAX_PLPMTU then Phase.Complete else sampleProbing.phase } ∧
    (MtuDiscovery.acked 5 sampleProbing).map MtuDiscovery.probe_count
      = some sampleProbing.probe_count :=
  acked_match_promotes sampleProbing 5 1350 rfl rfl (by decide)

/-- C3: `acked` and `lost` with a packet number other than the outstanding
probe number (in particular whenever no probe is outstanding) leave the state
bit-identical (and `acked` does not panic). -/
theorem mismatched_number_noop (st : MtuDiscovery) (n : Nat)
    (h : st.probe_number ≠ some n) :
    MtuDiscovery.acked n st = some st ∧ MtuDiscovery.lost n st = st := by
  cases hp : st.probe_number with
  | none => exact ⟨by simp [MtuDiscovery.acked, hp], by simp [MtuDiscovery.lost, hp]⟩
  | some probed =>
      have hne : ¬ probed = n := fun he => h (hp.trans (by rw [he]))
      exact ⟨by simp [MtuDiscovery.acked, hp, hne], by simp [MtuDiscovery.lost, hp, hne]⟩

/-- C3, witnessed at `sampleProbing` (probe number 5 outstanding) with the
unrelated packet number 3. -/
theorem mismatched_number_noop_witness :
    MtuDiscovery.acked 3 sampleProbing = some sampleProbing ∧
    MtuDiscovery.lost 3 sampleProbing = sampleProbing :=
  mismatched_number_noop sampleProbing 3 (by decide)

/-- C4: once `phase = Complete`, any sequence of `poll_transmit` / `acked` /
`lost` calls keeps `phase = Complete`, and `poll_transmit` returns no probe
size from any state so reached. -/
theorem complete_is_terminal (st st' : MtuDiscovery) (pn : Nat)
    (hc : st.phase = Phase.Complete)
    (hs : Relation.ReflTransGen MtuStep st st') :
    st'.phase = Phase.Complete ∧ (MtuDiscovery.poll_transmit pn st').1 = none := by
  have h' : st'.phase = Phase.Complete := by
    induction hs with
    | refl => exact hc
    | tail _ hstep ih => exact mtuStep_complete hstep ih
  exact ⟨h', (MtuDiscovery.poll_transmit_complete pn st' h').2⟩

/-- C4, witnessed at `sampleComplete` with the empty call sequence. -/
theorem complete_is_terminal_witness :
    sampleComplete.phase = Phase.Complete ∧
    (MtuDiscovery.poll_transmit 0 sampleComplete).1 = none :=
  complete_is_terminal sampleComplete sampleComplete 0 rfl Relation.ReflTransGen.refl

/-- C5: on every state reachable from a fresh `MtuDiscovery`, `current` is at
least the base value 1280, and no single `poll_transmit` / `acked` / `lost`
call decreases it. -/
theorem current_monotone (st st' : MtuDiscovery)
    (h : MtuReachable st) (hs : MtuStep st st') :
    BASE_PLPMTU ≤ st.current ∧ st.current ≤ st'.current := by
  have hi := mtuReachable_inv h
  exact ⟨hi.2.1, mtuStep_current_mono hi hs⟩

/-- C5, witnessed at the fresh IPv4 state and a `poll_transmit` step. -/
theorem current_monotone_witness :
    BASE_PLPMTU ≤ (MtuDiscovery.new SocketAddr.V4).current ∧
    (MtuDiscovery.new SocketAddr.V4).current
      ≤ (MtuDiscovery.poll_transmit 0 (MtuDiscovery.new SocketAddr.V4)).2.current :=
  current_monotone _ _ (MtuReachable.base SocketAddr.V4)
    (MtuStep.poll 0 (MtuDiscovery.new SocketAddr.V4))

/-- C10: on every reachable state `current` is at most 1480 (hence strictly
below `u16::MAX`), so the `current == MAX_PLPMTU` transition inside `acked` is
unreachable: a successful `acked` never changes `phase`. -/
theorem current_below_max (st : MtuDiscovery) (h : MtuReachable st) (pn : Nat)
    (st' : MtuDiscovery) (ha : MtuDiscovery.acked pn st = some st') :
    st.current ≤ 1480 ∧ st.current < MAX_PLPMTU ∧ st'.phase = st.phase := by
  obtain ⟨hh, hb, hc, hps, hpn⟩ := mtuReachable_inv h
  have h20 : 20 ≤ st.header_size := by rcases hh with h' | h' <;> omega
  have h1480 : st.current ≤ 1480 := by omega
  refine ⟨h1480, by show st.current < 65535; omega, ?_⟩
  rcases MtuDiscovery.acked_eq_some ha with rfl | ⟨s, hn, hsz, hhs, rfl⟩
  · rfl
  · obtain ⟨hlt, hmem⟩ := hps s hsz
    obtain ⟨hs1350, hs1500⟩ := mem_LEVELS_bounds hmem
    show (if s - st.header_size = MAX_PLPMTU then Phase.Complete else st.phase) = st.phase
    rw [if_neg]
    show ¬ s - st.header_size = 65535
    omega

/-- C10, witnessed at the fresh IPv4 state, on which `acked 0` is a no-op. -/
theorem current_below_max_witness :
    (MtuDiscovery.new SocketAddr.V4).current ≤ 1480 ∧
    (MtuDiscovery.new SocketAddr.V4).current < MAX_PLPMTU ∧
    (MtuDiscovery.new SocketAddr.V4).phase = (MtuDiscovery.new SocketAddr.V4).phase :=
  current_below_max _ (MtuReachable.base SocketAddr.V4) 0 _ rfl

/-- C9: `from_previous` copies the RTT estimator (all four fields) verbatim,
re-enables ECN, and builds a fresh MTU-discovery state for the new remote:
`Searching`, `current = 1280`, no probe outstanding, zero probe losses. -/
theorem from_previous_spec (C : Type) (cloneBox : C → C) (remote : SocketAddr)
    (prev : PathData C) :
    (PathData.from_previous cloneBox remote prev).rtt = prev.rtt ∧
    (PathData.from_previous cloneBox remote prev).rtt.latest = prev.rtt.latest ∧
    (PathData.from_previous cloneBox remote prev).rtt.smoothed = prev.rtt.smoothed ∧
    (PathData.from_previous cloneBox remote prev).rtt.var = prev.rtt.var ∧
    (PathData.from_previous cloneBox remote prev).rtt.min = prev.rtt.min ∧
    (PathData.from_previous cloneBox remote prev).sending_ecn = true ∧
    (PathData.from_previous cloneBox remote prev).mtud = MtuDiscovery.new remote ∧
    (PathData.from_previous cloneBox remote prev).mtud.phase = Phase.Searching ∧
    (PathData.from_previous cloneBox remote prev).mtud.current = BASE_PLPMTU ∧
    (PathData.from_previous cloneBox remote prev).mtud.probe_number = none ∧
    (PathData.from_previous cloneBox remote prev).mtud.probe_size = none ∧
    (PathData.from_previous cloneBox remote prev).mtud.probe_count = 0 :=
  ⟨rfl, rfl, rfl, rfl, rfl, rfl, rfl, rfl, rfl, rfl, rfl, rfl⟩
